import Mathlib

/-!
Shallow embedding of the guitar-practice-dashboard core
(src/music_theory.rs, src/audio.rs, src/main.rs).

Rust i32/u8 arithmetic is embedded over ℤ/ℕ; the Rust remainder operator
on i32 is truncating division, embedded as Int.tmod, and Rust i32 division
is Int.tdiv.  f32 arithmetic is modelled over ℝ.  A Rust function that can
panic (out-of-bounds array indexing) is embedded as an Option-valued
function, none marking the panic.
-/

namespace GuitarDashboard

/-- Pitch classes, from music_theory.rs, enum Key (lines 3-17). -/
inductive Key where
  | C
  | Cs
  | D
  | Ds
  | E
  | F
  | Fs
  | G
  | Gs
  | A
  | As
  | B
deriving DecidableEq, Repr, Fintype

/-- Key::from_int (music_theory.rs lines 20-36): match value % 12 with arms
0..=11 mapping to the twelve classes and a fallback arm returning C.
Rust % on i32 is truncating remainder, i.e. Int.tmod. -/
def Key.from_int (value : ℤ) : Key :=
  let r := Int.tmod value 12
  if r = 0 then Key.C
  else if r = 1 then Key.Cs
  else if r = 2 then Key.D
  else if r = 3 then Key.Ds
  else if r = 4 then Key.E
  else if r = 5 then Key.F
  else if r = 6 then Key.Fs
  else if r = 7 then Key.G
  else if r = 8 then Key.Gs
  else if r = 9 then Key.A
  else if r = 10 then Key.As
  else if r = 11 then Key.B
  else Key.C

/-- Key::to_int (music_theory.rs lines 38-53). -/
def Key.to_int : Key → ℤ
  | Key.C => 0
  | Key.Cs => 1
  | Key.D => 2
  | Key.Ds => 3
  | Key.E => 4
  | Key.F => 5
  | Key.Fs => 6
  | Key.G => 7
  | Key.Gs => 8
  | Key.A => 9
  | Key.As => 10
  | Key.B => 11

/-- Note (music_theory.rs lines 73-77): a pitch class and an i32 octave. -/
structure Note where
  note : Key
  octave : ℤ
deriving DecidableEq, Repr

/-- Note::new (music_theory.rs lines 80-82). -/
def Note.new (note : Key) (octave : ℤ) : Note :=
  { note := note, octave := octave }

/-- Note::semitone_value (music_theory.rs lines 88-90):
self.note.to_int() + (self.octave * 12). -/
def Note.semitone_value (self : Note) : ℤ :=
  self.note.to_int + self.octave * 12

/-- Scale types, from music_theory.rs, enum Scale (lines 93-101). -/
inductive Scale where
  | Major
  | NaturalMinor
  | MajorPentatonic
  | MinorPentatonic
  | MajorBlues
  | MinorBlues
deriving DecidableEq, Repr, Fintype

/-- Scale::from_int (music_theory.rs lines 104-114): arms 1..=6 and a
fallback arm returning Major. -/
def Scale.from_int (value : ℤ) : Scale :=
  if value = 1 then Scale.Major
  else if value = 2 then Scale.NaturalMinor
  else if value = 3 then Scale.MajorPentatonic
  else if value = 4 then Scale.MinorPentatonic
  else if value = 5 then Scale.MajorBlues
  else if value = 6 then Scale.MinorBlues
  else Scale.Major

/-- Scale::to_int (music_theory.rs lines 116-125). -/
def Scale.to_int : Scale → ℤ
  | Scale.Major => 1
  | Scale.NaturalMinor => 2
  | Scale.MajorPentatonic => 3
  | Scale.MinorPentatonic => 4
  | Scale.MajorBlues => 5
  | Scale.MinorBlues => 6

/-- Scale::intervals (music_theory.rs lines 139-148): semitone intervals
from the root for each scale type. -/
def Scale.intervals : Scale → List ℤ
  | Scale.Major => [0, 2, 4, 5, 7, 9, 11]
  | Scale.NaturalMinor => [0, 2, 3, 5, 7, 8, 10]
  | Scale.MajorPentatonic => [0, 2, 4, 7, 9]
  | Scale.MinorPentatonic => [0, 3, 5, 7, 10]
  | Scale.MajorBlues => [0, 3, 4, 7, 9]
  | Scale.MinorBlues => [0, 3, 5, 6, 7, 10]

/-- make_base_notes / BASE_NOTES (music_theory.rs lines 154-165): standard
tuning E2, A2, D3, G3, B3, E4, index 0 = low E. -/
def BASE_NOTES : List Note :=
  [ { note := Key.E, octave := 2 },
    { note := Key.A, octave := 2 },
    { note := Key.D, octave := 3 },
    { note := Key.G, octave := 3 },
    { note := Key.B, octave := 3 },
    { note := Key.E, octave := 4 } ]

/-- get_note_at_position (music_theory.rs lines 174-182).  The Rust body
indexes BASE_NOTES[string], which panics when string ≥ 6; the panic is
embedded as none.  string and fret are u8 (embedded ℕ); the semitone
arithmetic is i32 (embedded ℤ), with Rust % as Int.tmod and / as Int.tdiv. -/
def get_note_at_position (string : ℕ) (fret : ℕ) : Option Note :=
  match BASE_NOTES[string]? with
  | none => none
  | some base =>
    let semitones : ℤ := base.note.to_int + base.octave * 12 + (fret : ℤ)
    let note_value := Int.tmod semitones 12
    let octave := Int.tdiv semitones 12
    some (Note.new (Key.from_int note_value) octave)

/-- The semitone-value decomposition performed inside get_note_at_position
(music_theory.rs lines 178-181): note_value = semitones % 12,
octave = semitones / 12, then Note::new(Key::from_int(note_value), octave). -/
def note_from_semitone_value (semitones : ℤ) : Note :=
  Note.new (Key.from_int (Int.tmod semitones 12)) (Int.tdiv semitones 12)

/-- is_note_in_scale (music_theory.rs lines 204-213): any interval with
(key_offset + interval) % 12 == note_value. -/
def is_note_in_scale (note : Note) (key : Key) (scale : Scale) : Bool :=
  let intervals := scale.intervals
  let key_offset := key.to_int
  let note_value := note.note.to_int
  intervals.any (fun interval => Int.tmod (key_offset + interval) 12 = note_value)

/-- The spec's formulation of scale membership (spec §4.2): true iff
(ordinal(note.pitchClass) - ordinal(key)) mod 12 is a member of
intervalsFor(scaleType), with mathematical (floor) mod. -/
def isInScale_spec (note : Note) (key : Key) (scale : Scale) : Bool :=
  (note.note.to_int - key.to_int) % 12 ∈ scale.intervals

/-- calculate_frequency (music_theory.rs lines 216-223):
440.0 * 2.0f32.powf((note_semitone - a4_semitone) as f32 / 12.0),
with a4_semitone = Note::new(Key::A, 4).semitone_value().  f32 arithmetic
is modelled over ℝ, powf as real rpow. -/
noncomputable def calculate_frequency (note : Note) : ℝ :=
  let a4_semitone := (Note.new Key.A 4).semitone_value
  let note_semitone := note.semitone_value
  let semitones_above_a4 := note_semitone - a4_semitone
  440.0 * (2.0 : ℝ) ^ ((semitones_above_a4 : ℝ) / 12.0)

/-- SineWave (audio.rs lines 8-12): frequency, sample rate, and the
incrementing sample index. -/
structure SineWave where
  frequency : ℝ
  sample_rate : ℕ
  current_sample : ℕ

/-- SineWave::new (audio.rs lines 15-21): index starts at 0. -/
def SineWave.new (frequency : ℝ) (sample_rate : ℕ) : SineWave :=
  { frequency := frequency, sample_rate := sample_rate, current_sample := 0 }

/-- Iterator::next for SineWave (audio.rs lines 27-32):
t = current_sample / sample_rate, value = sin(t * frequency * 2 * π),
index increments, and the call always returns Some(value * 0.3).
The &mut self mutation is embedded as returning the updated generator. -/
noncomputable def SineWave.next (self : SineWave) : Option (ℝ × SineWave) :=
  let t : ℝ := (self.current_sample : ℝ) / (self.sample_rate : ℝ)
  let value := Real.sin (t * self.frequency * 2 * Real.pi)
  some (value * 0.3, { self with current_sample := self.current_sample + 1 })

/-- The i-th sample the iterator yields, obtained by driving next
repeatedly from the given generator state; none would mark iterator
termination. -/
noncomputable def SineWave.nthSample (self : SineWave) : ℕ → Option ℝ
  | 0 => self.next.map Prod.fst
  | n + 1 =>
    match self.next with
    | none => none
    | some (_, s2) => s2.nthSample n

/-- Source::current_frame_len for SineWave (audio.rs lines 36-38): None,
the generator is unbounded. -/
def SineWave.current_frame_len (_ : SineWave) : Option ℕ := none

/-- Source::channels for SineWave (audio.rs lines 40-42): mono. -/
def SineWave.channels (_ : SineWave) : ℕ := 1

/-- Source::total_duration for SineWave (audio.rs lines 48-50): None,
infinite. -/
def SineWave.total_duration (_ : SineWave) : Option ℕ := none

/-- The source built in AudioPlayer::play_note (audio.rs lines 90-92): a
SineWave truncated by take_duration to a duration in milliseconds.  The
truncation wraps the generator from outside; the generator itself carries
no duration. -/
structure TruncatedSource where
  wave : SineWave
  duration_ms : ℕ

/-- rodio take_duration as used in play_note: pairs the unbounded generator
with the caller-chosen duration. -/
def SineWave.take_duration (self : SineWave) (ms : ℕ) : TruncatedSource :=
  { wave := self, duration_ms := ms }

/-- Primitive operations AudioPlayer::play_note issues on the rodio Sink:
Sink::stop clears all pending audio, Sink::append enqueues a source. -/
inductive SinkOp where
  | stop
  | append (src : TruncatedSource)

/-- Effect of one sink operation on the sink's queue of pending sources. -/
def applySinkOp (q : List TruncatedSource) : SinkOp → List TruncatedSource
  | SinkOp.stop => []
  | SinkOp.append src => q ++ [src]

/-- Effect of a sequence of sink operations. -/
def applySinkOps (q : List TruncatedSource) (ops : List SinkOp) : List TruncatedSource :=
  ops.foldl applySinkOp q

/-- The successive sink states while a sequence of operations executes
(one entry after each operation). -/
def sinkStates (q : List TruncatedSource) : List SinkOp → List (List TruncatedSource)
  | [] => []
  | op :: rest =>
    let q2 := applySinkOp q op
    q2 :: sinkStates q2 rest

/-- AudioPlayer (audio.rs lines 53-57), with the Sink embedded as its
queue of pending sources.  sample_rate is set to 44100 by AudioPlayer::new
(audio.rs line 68). -/
structure AudioPlayer where
  sink : List TruncatedSource
  sample_rate : ℕ

/-- A freshly initialized AudioPlayer as AudioPlayer::new returns it on
success (audio.rs lines 60-75): empty sink, sample rate 44100. -/
def AudioPlayer.mkNew : AudioPlayer :=
  { sink := [], sample_rate := 44100 }

/-- The sink operations AudioPlayer::play_note performs (audio.rs lines
84-94): first self.sink.stop(), then self.sink.append(source) where
source = SineWave::new(frequency, self.sample_rate)
  .take_duration(Duration::from_millis(300)). -/
def play_note_ops (self : AudioPlayer) (frequency : ℝ) : List SinkOp :=
  [SinkOp.stop,
   SinkOp.append ((SineWave.new frequency self.sample_rate).take_duration 300)]

/-- AudioPlayer::play_note (audio.rs lines 84-94) as a state transition on
the player. -/
def AudioPlayer.play_note (self : AudioPlayer) (frequency : ℝ) : AudioPlayer :=
  { self with sink := applySinkOps self.sink (play_note_ops self frequency) }

/-- A sequence of play_note calls folded over the player. -/
def run_plays (p : AudioPlayer) (fs : List ℝ) : AudioPlayer :=
  fs.foldl AudioPlayer.play_note p

/-- The audio-initialization step of run_app (main.rs lines 256-270): if
audio is disabled the player is None; otherwise AudioPlayer::new()'s Ok
payload is kept and an Err collapses to None (logged, not propagated). -/
def run_app_audio (disable_audio : Bool) (init : Except String AudioPlayer) :
    Option AudioPlayer :=
  if disable_audio then none
  else
    match init with
    | Except.ok player => some player
    | Except.error _ => none

/-- The on_fret_clicked callback (main.rs lines 329-335): look the note up,
compute its frequency, and play it only when a player exists.  The result
carries the computed frequency and the sink operations performed; none
marks the panic of an out-of-range string index inside
get_note_at_position. -/
noncomputable def on_fret_clicked (audio_player_opt : Option AudioPlayer)
    (string : ℕ) (fret : ℕ) : Option (ℝ × List SinkOp) :=
  match get_note_at_position string fret with
  | none => none
  | some note =>
    let frequency := calculate_frequency note
    match audio_player_opt with
    | some player => some (frequency, play_note_ops player frequency)
    | none => some (frequency, [])

/-- Key.from_int only depends on its argument's truncated remainder mod 12. -/
theorem key_from_int_eq_of_tmod_eq {a b : ℤ} (h : Int.tmod a 12 = Int.tmod b 12) :
    Key.from_int a = Key.from_int b := by
  unfold Key.from_int
  rw [h]

/-- C1, counterexample: Key::from_int uses Rust's truncating %, so
from_int(-1) takes the fallback arm and returns C, while from_int(11)
returns B; neither the claimed floor-modulo behaviour at -1 nor
12-periodicity at n = -1 holds. -/
theorem key_from_int_neg_one_breaks_periodicity :
    Key.from_int (-1) = Key.C ∧ Key.from_int (-1 + 12) = Key.B ∧
    Key.from_int (-1) ≠ Key.from_int (-1 + 12) := by decide

/-- C1, amended: Key::from_int reduces with Rust's truncating remainder, so
12-periodicity from_int(n) = from_int(n + 12) holds for every n ≥ 0, but a
negative input such as -1 keeps its negative remainder, misses every
numbered match arm, and lands on the fallback: from_int(-1) = C, not B. -/
theorem key_from_int_periodic_nonneg (n : ℤ) (h : 0 ≤ n) :
    Key.from_int n = Key.from_int (n + 12) ∧ Key.from_int (-1) = Key.C := by
  refine ⟨?_, by decide⟩
  apply key_from_int_eq_of_tmod_eq
  rw [Int.tmod_eq_emod h (by norm_num), Int.tmod_eq_emod (by omega) (by norm_num)]
  omega

/-- Witness for C1's amended theorem at n = 5. -/
theorem key_from_int_periodic_nonneg_witness :
    (0:ℤ) ≤ 5 ∧
    (Key.from_int 5 = Key.from_int (5 + 12) ∧ Key.from_int (-1) = Key.C) :=
  ⟨by decide, key_from_int_periodic_nonneg 5 (by decide)⟩

/-- C4: is_note_in_scale agrees with the spec's membership formula
((ordinal(note) - ordinal(key)) mod 12 ∈ intervals), ignores the octave,
and at key C with the Major scale holds exactly for the naturals
C, D, E, F, G, A, B. -/
theorem is_note_in_scale_correct (note : Note) (key : Key) (scale : Scale) :
    is_note_in_scale note key scale = isInScale_spec note key scale ∧
    (∀ o : ℤ, is_note_in_scale (Note.new note.note o) key scale
        = is_note_in_scale note key scale) ∧
    (is_note_in_scale note Key.C Scale.Major = true ↔
      note.note ∈ [Key.C, Key.D, Key.E, Key.F, Key.G, Key.A, Key.B]) := by
  obtain ⟨k, o⟩ := note
  refine ⟨?_, fun o2 => rfl, ?_⟩
  · have h : ∀ (k2 key2 : Key) (scale2 : Scale),
        is_note_in_scale (Note.new k2 0) key2 scale2
          = isInScale_spec (Note.new k2 0) key2 scale2 := by decide
    exact h k key scale
  · have h : ∀ k2 : Key,
        is_note_in_scale (Note.new k2 0) Key.C Scale.Major = true ↔
          k2 ∈ [Key.C, Key.D, Key.E, Key.F, Key.G, Key.A, Key.B] := by decide
    exact h k

/-- C5: get_note_at_position yields a note exactly when the string index is
in range for the 6-string tuning; any fret value is accepted.  The none
case embeds the Rust panic on the out-of-bounds BASE_NOTES index. -/
theorem noteAt_some_iff_string_in_range (string fret : ℕ) :
    (get_note_at_position string fret).isSome = true ↔ string < 6 := by
  constructor
  · intro hs
    by_contra hlt
    push_neg at hlt
    have hnone : BASE_NOTES[string]? = none := by
      rw [List.getElem?_eq_none_iff]
      simpa [BASE_NOTES] using hlt
    simp [get_note_at_position, hnone] at hs
  · intro hs
    interval_cases string <;> simp [get_note_at_position, BASE_NOTES]

/-- C7: decomposing a note's semitone value with the / and % arithmetic of
get_note_at_position recovers the note, for every octave ≥ 0. -/
theorem note_semitone_roundtrip (note : Note) (h : 0 ≤ note.octave) :
    note_from_semitone_value note.semitone_value = note := by
  obtain ⟨k, o⟩ := note
  have ho : (0:ℤ) ≤ o := h
  have hk : 0 ≤ k.to_int ∧ k.to_int < 12 := by cases k <;> decide
  have hs : (0:ℤ) ≤ k.to_int + o * 12 := by omega
  have h1 : Int.tmod (k.to_int + o * 12) 12 = k.to_int := by
    rw [Int.tmod_eq_emod hs (by norm_num)]
    omega
  have h2 : Int.tdiv (k.to_int + o * 12) 12 = o := by
    rw [Int.tdiv_eq_ediv hs (by norm_num)]
    omega
  show Note.new (Key.from_int (Int.tmod (k.to_int + o * 12) 12))
      (Int.tdiv (k.to_int + o * 12) 12) = Note.mk k o
  rw [h1, h2]
  have hfk : Key.from_int k.to_int = k := by cases k <;> decide
  rw [hfk]
  rfl

/-- Witness for C7's round-trip at the note A4. -/
theorem note_semitone_roundtrip_witness :
    0 ≤ (Note.new Key.A 4).octave ∧
    note_from_semitone_value (Note.new Key.A 4).semitone_value
      = Note.new Key.A 4 :=
  ⟨by decide, note_semitone_roundtrip (Note.new Key.A 4) (by decide)⟩

/-- C8: the standard-tuning spot checks: string 0 fret 0 is E2, string 5
fret 0 is E4, string 0 fret 12 is E3 (one octave above the open string),
and string 0 fret 5 is A2. -/
theorem noteAt_standard_tuning_values :
    get_note_at_position 0 0 = some (Note.new Key.E 2) ∧
    get_note_at_position 5 0 = some (Note.new Key.E 4) ∧
    get_note_at_position 0 12 = some (Note.new Key.E 3) ∧
    get_note_at_position 0 5 = some (Note.new Key.A 2) := by decide

/-- C10: the integer encoding of scale types round-trips, and every value
outside 1..=6 is coerced to Major by the fallback arm rather than
rejected. -/
theorem scale_int_roundtrip_and_fallback :
    (∀ s : Scale, Scale.from_int s.to_int = s) ∧
    (∀ v : ℤ, v < 1 ∨ 6 < v → Scale.from_int v = Scale.Major) := by
  constructor
  · intro s
    cases s <;> rfl
  · intro v hv
    unfold Scale.from_int
    rw [if_neg (by omega), if_neg (by omega), if_neg (by omega),
        if_neg (by omega), if_neg (by omega), if_neg (by omega)]

/-- Witness for C10's fallback at the out-of-range value 0. -/
theorem scale_int_roundtrip_and_fallback_witness :
    ((0:ℤ) < 1 ∨ 6 < (0:ℤ)) ∧ Scale.from_int 0 = Scale.Major :=
  ⟨Or.inl (by decide),
   scale_int_roundtrip_and_fallback.2 0 (Or.inl (by decide))⟩

/-- run_plays never changes the player's sample rate: play_note only
rewrites the sink. -/
theorem run_plays_sample_rate (p : AudioPlayer) (fs : List ℝ) :
    (run_plays p fs).sample_rate = p.sample_rate := by
  induction fs generalizing p with
  | nil => rfl
  | cons g gs ih => exact (ih (p.play_note g)).trans rfl

/-- C2: when audio initialization fails, run_app keeps no player, and a
fret click on any in-range string still completes: the note lookup and
frequency computation succeed and no sink operation is issued. -/
theorem audio_failure_degrades_to_noop (e : String) (s f : ℕ) (h : s < 6) :
    run_app_audio false (Except.error e) = none ∧
    ∃ freq : ℝ,
      on_fret_clicked (run_app_audio false (Except.error e)) s f
        = some (freq, []) := by
  refine ⟨rfl, ?_⟩
  have hnote : ∃ note, get_note_at_position s f = some note := by
    interval_cases s <;> exact ⟨_, rfl⟩
  obtain ⟨note, hn⟩ := hnote
  refine ⟨calculate_frequency note, ?_⟩
  simp [on_fret_clicked, hn, run_app_audio]

/-- Witness for C2 at string 0, fret 0 with a concrete device error. -/
theorem audio_failure_degrades_to_noop_witness :
    (0:ℕ) < 6 ∧
    (run_app_audio false (Except.error "no audio device") = none ∧
     ∃ freq : ℝ,
       on_fret_clicked (run_app_audio false (Except.error "no audio device")) 0 0
         = some (freq, [])) :=
  ⟨by decide, audio_failure_degrades_to_noop "no audio device" 0 0 (by decide)⟩

/-- C3: every play_note call issues a stop before its single append, every
intermediate sink state during a call holds at most one source, one call
leaves exactly the new tone in the sink whatever was pending before, and
any sequence of calls ends with only the last requested tone pending:
monophonic, last-write-wins, no queueing. -/
theorem play_note_monophonic (p : AudioPlayer) (f : ℝ) (fs : List ℝ) :
    play_note_ops p f
      = [SinkOp.stop,
         SinkOp.append ((SineWave.new f p.sample_rate).take_duration 300)] ∧
    (p.play_note f).sink = [(SineWave.new f p.sample_rate).take_duration 300] ∧
    ((sinkStates p.sink (play_note_ops p f)).all
        fun st => st.length ≤ 1) = true ∧
    (run_plays p (fs ++ [f])).sink
      = [(SineWave.new f p.sample_rate).take_duration 300] := by
  refine ⟨rfl, rfl, rfl, ?_⟩
  have hsplit : run_plays p (fs ++ [f]) = (run_plays p fs).play_note f := by
    unfold run_plays
    rw [List.foldl_append]
    rfl
  rw [hsplit]
  show applySinkOps (run_plays p fs).sink (play_note_ops (run_plays p fs) f)
      = [(SineWave.new f p.sample_rate).take_duration 300]
  rw [show (play_note_ops (run_plays p fs) f)
      = [SinkOp.stop,
         SinkOp.append
           ((SineWave.new f (run_plays p fs).sample_rate).take_duration 300)]
      from rfl,
    run_plays_sample_rate]
  rfl

/-- The i-th sample of a sine generator in an arbitrary state: driving next
i+1 times yields sin((c + i)/rate * f * 2π) * 0.3 where c is the current
sample index. -/
theorem sineWave_nthSample_formula (f : ℝ) (r : ℕ) (c : ℕ) (i : ℕ) :
    SineWave.nthSample { frequency := f, sample_rate := r, current_sample := c } i
      = some (Real.sin ((((c + i : ℕ) : ℝ) / (r : ℝ)) * f * 2 * Real.pi) * 0.3) := by
  induction i generalizing c with
  | zero => simp [SineWave.nthSample, SineWave.next]
  | succ n ih =>
    have hcn : c + 1 + n = c + (n + 1) := by omega
    simp only [SineWave.nthSample, SineWave.next]
    rw [show ({ frequency := f, sample_rate := r, current_sample := c : SineWave}.current_sample + 1)
        = c + 1 from rfl]
    rw [ih (c + 1), hcn]

/-- C6: the tone generator emits sample i = 0.3·sin(2π·f·i/44100) at the
44100 Hz rate play_note uses, never terminates (next is always some), is
mono with no frame bound and no total duration, and the 300 ms truncation
is applied by play_note wrapping the unbounded generator in take_duration,
not inside the generator itself. -/
theorem sine_generator_correct (f : ℝ) (i : ℕ) :
    (SineWave.new f 44100).nthSample i
      = some (0.3 * Real.sin (2 * Real.pi * f * (i : ℝ) / 44100)) ∧
    (∀ s : SineWave, s.next.isSome = true) ∧
    (SineWave.new f 44100).channels = 1 ∧
    (SineWave.new f 44100).total_duration = none ∧
    (SineWave.new f 44100).current_frame_len = none ∧
    (∀ p : AudioPlayer,
      play_note_ops p f
        = [SinkOp.stop,
           SinkOp.append ((SineWave.new f p.sample_rate).take_duration 300)] ∧
      ((SineWave.new f p.sample_rate).take_duration 300).wave.total_duration
        = none) := by
  refine ⟨?_, fun s => rfl, rfl, rfl, rfl, fun p => ⟨rfl, rfl⟩⟩
  rw [show SineWave.new f 44100
      = { frequency := f, sample_rate := 44100, current_sample := 0 } from rfl,
    sineWave_nthSample_formula]
  congr 1
  have harg : ((((0 + i : ℕ)) : ℝ) / ((44100 : ℕ) : ℝ)) * f * 2 * Real.pi
      = 2 * Real.pi * f * (i : ℝ) / 44100 := by
    push_cast
    ring
  rw [harg]
  ring

/-- C9: calculate_frequency is the equal-temperament formula anchored at
A4 = 440 Hz: it returns exactly 440 at A4 (within 0.1), about 261.63 at C4
(within 0.5), and is strictly positive for every note. -/
theorem calculate_frequency_correct :
    |calculate_frequency (Note.new Key.A 4) - 440| < 0.1 ∧
    |calculate_frequency (Note.new Key.C 4) - 261.63| < 0.5 ∧
    ∀ note : Note, 0 < calculate_frequency note := by
  have hxpos : (0:ℝ) < (2:ℝ) ^ ((3:ℝ)/4) :=
    Real.rpow_pos_of_pos (by norm_num) _
  have hx4 : ((2:ℝ) ^ ((3:ℝ)/4)) ^ (4:ℕ) = 8 := by
    have h34 : ((3:ℝ)/4) * ((4:ℕ):ℝ) = ((3:ℕ):ℝ) := by norm_num
    rw [← Real.rpow_natCast ((2:ℝ) ^ ((3:ℝ)/4)) 4,
        ← Real.rpow_mul (by norm_num : (0:ℝ) ≤ 2), h34, Real.rpow_natCast]
    norm_num
  have hlow : (1.6786:ℝ) < (2:ℝ) ^ ((3:ℝ)/4) := by
    by_contra hcon
    push_neg at hcon
    have h4 : ((2:ℝ) ^ ((3:ℝ)/4)) ^ (4:ℕ) ≤ (1.6786:ℝ) ^ (4:ℕ) :=
      pow_le_pow_left₀ hxpos.le hcon 4
    rw [hx4] at h4
    norm_num at h4
  have hhigh : (2:ℝ) ^ ((3:ℝ)/4) < 1.6849 := by
    by_contra hcon
    push_neg at hcon
    have h4 : (1.6849:ℝ) ^ (4:ℕ) ≤ ((2:ℝ) ^ ((3:ℝ)/4)) ^ (4:ℕ) :=
      pow_le_pow_left₀ (by norm_num) hcon 4
    rw [hx4] at h4
    norm_num at h4
  have hA : calculate_frequency (Note.new Key.A 4) = 440 := by
    have h0 : (((Note.new Key.A 4).semitone_value
        - (Note.new Key.A 4).semitone_value : ℤ) : ℝ) / 12.0 = 0 := by
      norm_num
    show (440.0 : ℝ) * 2.0 ^ ((((Note.new Key.A 4).semitone_value
        - (Note.new Key.A 4).semitone_value : ℤ) : ℝ) / 12.0) = 440
    rw [h0, Real.rpow_zero]
    norm_num
  have hC : calculate_frequency (Note.new Key.C 4)
      = 440 * ((2:ℝ) ^ ((3:ℝ)/4))⁻¹ := by
    have he : (((Note.new Key.C 4).semitone_value
        - (Note.new Key.A 4).semitone_value : ℤ) : ℝ) / 12.0 = -((3:ℝ)/4) := by
      norm_num [Note.semitone_value, Note.new, Key.to_int]
    show (440.0 : ℝ) * 2.0 ^ ((((Note.new Key.C 4).semitone_value
        - (Note.new Key.A 4).semitone_value : ℤ) : ℝ) / 12.0)
      = 440 * ((2:ℝ) ^ ((3:ℝ)/4))⁻¹
    rw [he, (by norm_num : (2.0:ℝ) = 2),
        Real.rpow_neg (by norm_num : (0:ℝ) ≤ 2)]
    norm_num
  refine ⟨?_, ?_, ?_⟩
  · rw [hA]
    norm_num
  · have hdiv : (440:ℝ) * ((2:ℝ) ^ ((3:ℝ)/4))⁻¹
        = 440 / ((2:ℝ) ^ ((3:ℝ)/4)) := by ring
    rw [hC, hdiv, abs_lt]
    constructor
    · have h1 : (261.13:ℝ) < 440 / ((2:ℝ) ^ ((3:ℝ)/4)) := by
        rw [lt_div_iff₀ hxpos]
        linarith
      linarith
    · have h2 : (440:ℝ) / ((2:ℝ) ^ ((3:ℝ)/4)) < 262.13 := by
        rw [div_lt_iff₀ hxpos]
        linarith
      linarith
  · intro note
    show (0:ℝ) < 440.0 * 2.0 ^ (((note.semitone_value
        - (Note.new Key.A 4).semitone_value : ℤ) : ℝ) / 12.0)
    exact mul_pos (by norm_num) (Real.rpow_pos_of_pos (by norm_num) _)

end GuitarDashboard
